import Mathlib

/-!
Verification development for the accesslint-bench benchmark orchestration
and concordance engine.

Shallow embedding conventions:
- JavaScript numbers holding counts and indices are embedded as `Nat`
  (`Int` where a sentinel value of -1 occurs in the source).
- JavaScript floating-point statistics (agreement, Cohen kappa) are
  embedded as exact rationals `ℚ`; divisions in the source are embedded
  as `ℚ` division.
- 32-bit integer operations of the mulberry32 PRNG (`| 0`, `Math.imul`,
  `>>>`, `^`) are embedded as `Nat` operations reduced modulo `2 ^ 32`.
- JavaScript string sets (insertion-ordered, deduplicated, sorted before
  use) are embedded as `List String` with `List.dedup` followed by
  `List.mergeSort`; the final sorted deduplicated value agrees with the
  source because sorting a duplicate-free list is order-insensitive.
-/

namespace WebBench

/-- Task or tool status, `"ok" | "error"` in the source. -/
inductive Status where
  | ok
  | error
deriving DecidableEq, Repr

instance : BEq Status := ⟨fun a b => decide (a = b)⟩

/-! ## Concordance engine, two-tool variant (src/web-bench/concordance.ts)

`calculateConcordance` reads only the `status`, `axeWcagCriteria` and
`alWcagCriteria` fields of each site result, so the embedding records
exactly those fields of the input records. -/

/-- The fields of a SiteResult that the two-tool `calculateConcordance` reads. -/
structure ConcordanceInput where
  status : Status
  axeWcagCriteria : List String
  alWcagCriteria : List String
deriving Repr

/-- One output row of the two-tool `calculateConcordance` (CriterionConcordance). -/
structure CriterionConcordance where
  criterion : String
  bothFound : ℕ
  axeOnly : ℕ
  alOnly : ℕ
  neitherFound : ℕ
  agreement : ℚ
  cohenKappa : ℚ
deriving Repr

/-- The four cells of the 2x2 contingency table accumulated per criterion. -/
structure Cells where
  bothFound : ℕ
  axeOnly : ℕ
  alOnly : ℕ
  neitherFound : ℕ
deriving DecidableEq, Repr

/-- Total count across the four contingency cells. -/
def Cells.total (c : Cells) : ℕ :=
  c.bothFound + c.axeOnly + c.alOnly + c.neitherFound

/-- Loop body of the per-criterion tally in `calculateConcordance`:
`if (axeHas && alHas) bothFound++; else if (axeHas) axeOnly++;
else if (alHas) alOnly++; else neitherFound++`. -/
def tallyStep (criterion : String) (acc : Cells) (r : ConcordanceInput) : Cells :=
  let axeHas := r.axeWcagCriteria.contains criterion
  let alHas := r.alWcagCriteria.contains criterion
  if axeHas && alHas then { acc with bothFound := acc.bothFound + 1 }
  else if axeHas then { acc with axeOnly := acc.axeOnly + 1 }
  else if alHas then { acc with alOnly := acc.alOnly + 1 }
  else { acc with neitherFound := acc.neitherFound + 1 }

/-- The per-criterion contingency table of `calculateConcordance`,
accumulated over the ok results. -/
def tallyCriterion (criterion : String) (okResults : List ConcordanceInput) : Cells :=
  okResults.foldl (tallyStep criterion) ⟨0, 0, 0, 0⟩

/-- The sorted union of all criteria found by either tool in any ok result
(`allCriteria` built as a JS Set, then `[...allCriteria].sort()`). -/
def allCriteriaOf (okResults : List ConcordanceInput) : List String :=
  ((okResults.flatMap fun r => r.axeWcagCriteria ++ r.alWcagCriteria).dedup).mergeSort
    (fun a b => a ≤ b)

/-- Two-tool `calculateConcordance` from src/web-bench/concordance.ts. -/
def calculateConcordance (results : List ConcordanceInput) : List CriterionConcordance :=
  let okResults := results.filter fun r => r.status == Status.ok
  let totalPages := okResults.length
  if totalPages = 0 then []
  else
    (allCriteriaOf okResults).map fun criterion =>
      let cells := tallyCriterion criterion okResults
      let agreement : ℚ := ((cells.bothFound : ℚ) + (cells.neitherFound : ℚ)) / (totalPages : ℚ)
      let pAxe : ℚ := ((cells.bothFound : ℚ) + (cells.axeOnly : ℚ)) / (totalPages : ℚ)
      let pAl : ℚ := ((cells.bothFound : ℚ) + (cells.alOnly : ℚ)) / (totalPages : ℚ)
      let pe : ℚ := pAxe * pAl + (1 - pAxe) * (1 - pAl)
      let kappa : ℚ := if pe = 1 then 1 else (agreement - pe) / (1 - pe)
      { criterion := criterion
        bothFound := cells.bothFound
        axeOnly := cells.axeOnly
        alOnly := cells.alOnly
        neitherFound := cells.neitherFound
        agreement := agreement
        cohenKappa := kappa }

/-! ## Spec-side formulas for Cohen kappa (for the refinement claim C1).

These definitions follow the wording of the specification:
`po = (bothFound + neitherFound) / n`, `p1 = (bothFound + firstOnly) / n`,
`p2 = (bothFound + secondOnly) / n`, `pe = p1*p2 + (1-p1)*(1-p2)`,
`kappa = 1` if `pe = 1`, else `(po - pe) / (1 - pe)`, with
`n = bothFound + firstOnly + secondOnly + neitherFound`. -/

/-- Spec formula: total count `n` of the contingency table, as a rational. -/
def nSpec (bothFound firstOnly secondOnly neitherFound : ℕ) : ℚ :=
  (bothFound : ℚ) + (firstOnly : ℚ) + (secondOnly : ℚ) + (neitherFound : ℚ)

/-- Spec formula: observed agreement `po = (bothFound + neitherFound) / n`. -/
def poSpec (bothFound firstOnly secondOnly neitherFound : ℕ) : ℚ :=
  ((bothFound : ℚ) + (neitherFound : ℚ)) / nSpec bothFound firstOnly secondOnly neitherFound

/-- Spec formula: first-rater marginal `p1 = (bothFound + firstOnly) / n`. -/
def p1Spec (bothFound firstOnly secondOnly neitherFound : ℕ) : ℚ :=
  ((bothFound : ℚ) + (firstOnly : ℚ)) / nSpec bothFound firstOnly secondOnly neitherFound

/-- Spec formula: second-rater marginal `p2 = (bothFound + secondOnly) / n`. -/
def p2Spec (bothFound firstOnly secondOnly neitherFound : ℕ) : ℚ :=
  ((bothFound : ℚ) + (secondOnly : ℚ)) / nSpec bothFound firstOnly secondOnly neitherFound

/-- Spec formula: expected agreement `pe = p1*p2 + (1-p1)*(1-p2)`. -/
def peSpec (bothFound firstOnly secondOnly neitherFound : ℕ) : ℚ :=
  p1Spec bothFound firstOnly secondOnly neitherFound *
    p2Spec bothFound firstOnly secondOnly neitherFound +
  (1 - p1Spec bothFound firstOnly secondOnly neitherFound) *
    (1 - p2Spec bothFound firstOnly secondOnly neitherFound)

/-- Spec formula: `kappa = 1` if `pe = 1`, else `(po - pe) / (1 - pe)`. -/
def kappaSpec (bothFound firstOnly secondOnly neitherFound : ℕ) : ℚ :=
  if peSpec bothFound firstOnly secondOnly neitherFound = 1 then 1
  else (poSpec bothFound firstOnly secondOnly neitherFound -
        peSpec bothFound firstOnly secondOnly neitherFound) /
       (1 - peSpec bothFound firstOnly secondOnly neitherFound)

/-! ## Concordance engine, three-tool variant (src/unnamed/part_005)

The three-tool `calculateConcordance` additionally reads `ibmWcagCriteria`,
which is optional in the record (`r.ibmWcagCriteria ?? []`). -/

/-- The fields of a SiteResult that the three-tool `calculateConcordance` reads. -/
structure ConcordanceInput3 where
  status : Status
  axeWcagCriteria : List String
  alWcagCriteria : List String
  ibmWcagCriteria : Option (List String)
deriving Repr

/-- `cohenKappa(a, b, c, d)` from the three-tool variant: kappa of a 2x2
contingency table, with `n = 0 ↦ 1` and `pe = 1 ↦ 1` guards. -/
def cohenKappa (a b c d : ℕ) : ℚ :=
  let n := a + b + c + d
  if n = 0 then 1
  else
    let nq : ℚ := (n : ℚ)
    let po := ((a : ℚ) + (d : ℚ)) / nq
    let p1 := ((a : ℚ) + (b : ℚ)) / nq
    let p2 := ((a : ℚ) + (c : ℚ)) / nq
    let pe := p1 * p2 + (1 - p1) * (1 - p2)
    if pe = 1 then 1 else (po - pe) / (1 - pe)

/-- One pairwise 2x2 update of the three-tool tally; the `Cells` fields read
as (bothFound, firstOnly, secondOnly, neitherFound) for the pair. -/
def pairStep (firstHas secondHas : Bool) (c : Cells) : Cells :=
  if firstHas && secondHas then { c with bothFound := c.bothFound + 1 }
  else if firstHas then { c with axeOnly := c.axeOnly + 1 }
  else if secondHas then { c with alOnly := c.alOnly + 1 }
  else { c with neitherFound := c.neitherFound + 1 }

/-- Accumulator of the three-tool per-criterion loop: multi-way buckets plus
the three pairwise 2x2 tables. -/
structure Tally3 where
  allThree : ℕ
  twoOfThree : ℕ
  oneOnly : ℕ
  noneFound : ℕ
  axeAl : Cells
  axeIbm : Cells
  alIbm : Cells
deriving Repr

/-- Sum of the four multi-way buckets. -/
def Tally3.bucketTotal (t : Tally3) : ℕ :=
  t.allThree + t.twoOfThree + t.oneOnly + t.noneFound

/-- Bucket update of the three-tool loop: `count` of tools that found the
criterion decides which of the four buckets is incremented. -/
def bucketStep (axeHas alHas ibmHas : Bool) (t : Tally3) : Tally3 :=
  let count := (if axeHas then 1 else 0) + (if alHas then 1 else 0) +
    (if ibmHas then 1 else 0)
  if count = 3 then { t with allThree := t.allThree + 1 }
  else if count = 2 then { t with twoOfThree := t.twoOfThree + 1 }
  else if count = 1 then { t with oneOnly := t.oneOnly + 1 }
  else { t with noneFound := t.noneFound + 1 }

/-- Loop body of the three-tool per-criterion tally: bucket update followed by
the three pairwise 2x2 updates. -/
def tally3Step (criterion : String) (t : Tally3) (r : ConcordanceInput3) : Tally3 :=
  let axeHas := r.axeWcagCriteria.contains criterion
  let alHas := r.alWcagCriteria.contains criterion
  let ibmHas := (r.ibmWcagCriteria.getD []).contains criterion
  let b := bucketStep axeHas alHas ibmHas t
  { b with
      axeAl := pairStep axeHas alHas b.axeAl
      axeIbm := pairStep axeHas ibmHas b.axeIbm
      alIbm := pairStep alHas ibmHas b.alIbm }

/-- The three-tool per-criterion tally over the ok results. -/
def tally3 (criterion : String) (okResults : List ConcordanceInput3) : Tally3 :=
  okResults.foldl (tally3Step criterion) ⟨0, 0, 0, 0, ⟨0, 0, 0, 0⟩, ⟨0, 0, 0, 0⟩, ⟨0, 0, 0, 0⟩⟩

/-- One output row of the three-tool `calculateConcordance`. -/
structure CriterionConcordance3 where
  criterion : String
  allThree : ℕ
  twoOfThree : ℕ
  oneOnly : ℕ
  noneFound : ℕ
  axeAlKappa : ℚ
  axeIbmKappa : ℚ
  alIbmKappa : ℚ
deriving Repr

/-- Sorted union of all criteria found by any of the three tools in any ok
result. -/
def allCriteriaOf3 (okResults : List ConcordanceInput3) : List String :=
  ((okResults.flatMap fun r =>
      r.axeWcagCriteria ++ r.alWcagCriteria ++ r.ibmWcagCriteria.getD []).dedup).mergeSort
    (fun a b => a ≤ b)

/-- Three-tool `calculateConcordance` from src/unnamed/part_005. -/
def calculateConcordance3 (results : List ConcordanceInput3) : List CriterionConcordance3 :=
  let okResults := results.filter fun r => r.status == Status.ok
  let totalPages := okResults.length
  if totalPages = 0 then []
  else
    (allCriteriaOf3 okResults).map fun criterion =>
      let t := tally3 criterion okResults
      { criterion := criterion
        allThree := t.allThree
        twoOfThree := t.twoOfThree
        oneOnly := t.oneOnly
        noneFound := t.noneFound
        axeAlKappa := cohenKappa t.axeAl.bothFound t.axeAl.axeOnly t.axeAl.alOnly t.axeAl.neitherFound
        axeIbmKappa := cohenKappa t.axeIbm.bothFound t.axeIbm.axeOnly t.axeIbm.alOnly t.axeIbm.neitherFound
        alIbmKappa := cohenKappa t.alIbm.bothFound t.alIbm.axeOnly t.alIbm.alOnly t.alIbm.neitherFound }

/-! ## Sampler (src/web-bench/sites.js source, embedded from
src/src/web-bench/auditor.ts lines 500-639): mulberry32 PRNG, seeded
Fisher-Yates shuffle, blocklist filter, and the download-and-sample
pipeline. Network fetching and CSV/hosts-file parsing are collaborators
outside the sampled-data path of the claims; the pipeline is embedded
from the point where the parsed site list and blocklist are in hand.
Hostname extraction (`new URL(origin).hostname`) relies on the platform
URL parser, so it is taken as a parameter `hostOf`. -/

/-- A parsed CrUX record `{origin, rank}`. -/
structure Site where
  origin : String
  rank : ℕ
deriving DecidableEq, Repr

/-- 2 ^ 32, the modulus of all 32-bit operations in mulberry32. -/
def M32 : ℕ := 4294967296

/-- One call of the mulberry32 PRNG: maps the captured seed word to the
updated seed word and the 32-bit output word (the source returns
`word / 2 ^ 32` as a float in `[0, 1)`). JS `| 0`, `Math.imul`, `>>> k`,
`^` and `|` are embedded as `Nat` operations modulo `2 ^ 32` on the
32-bit words. -/
def mulberry32Step (seed : ℕ) : ℕ × ℕ :=
  let s := (seed + 0x6d2b79f5) % M32
  let t1 := ((s ^^^ (s >>> 15)) * (s ||| 1)) % M32
  let t2 := ((t1 + ((t1 ^^^ (t1 >>> 7)) * (t1 ||| 61)) % M32) % M32) ^^^ t1
  (s, t2 ^^^ (t2 >>> 14))

/-- Swap the entries at positions `i` and `j` of a list
(`[arr[i], arr[j]] = [arr[j], arr[i]]`). -/
def listSwap {α : Type} (l : List α) (i j : ℕ) : List α :=
  match l[i]?, l[j]? with
  | some a, some b => (l.set i b).set j a
  | _, _ => l

/-- The Fisher-Yates loop of `seededSample`, iterating the index `i`
downward to 1: at index `i`, draw `j = floor(rand() * (i + 1))`
(exact as `word * (i + 1) / 2 ^ 32`) and swap positions `i` and `j`. -/
def fisherYatesAux {α : Type} (arr : List α) (seed : ℕ) : ℕ → List α
  | 0 => arr
  | i + 1 =>
    let step := mulberry32Step seed
    let j := step.2 * (i + 1 + 1) / M32
    fisherYatesAux (listSwap arr (i + 1) j) step.1 i

/-- `seededSample(items, n, seed)`: copy, full seeded Fisher-Yates shuffle,
then take the first `n` elements. The JS `seed |= 0` on first use reduces
the seed to its 32-bit word. -/
def seededSample {α : Type} (items : List α) (n : ℕ) (seed : ℕ) : List α :=
  (fisherYatesAux items (seed % M32) (items.length - 1)).take n

/-- Split a character stream at dots, accumulating the current label in
reverse; embeds the JS `hostname.split(".")` (splitting at every dot
character). -/
def splitDotAux : List Char → List Char → List String
  | [], acc => [String.mk acc.reverse]
  | c :: cs, acc =>
    if c = '.' then String.mk acc.reverse :: splitDotAux cs []
    else splitDotAux cs (c :: acc)

/-- `hostname.split(".")`. -/
def splitOnDot (s : String) : List String := splitDotAux s.toList []

/-- `parts.join(".")`. -/
def joinDot : List String → String
  | [] => ""
  | [p] => p
  | p :: ps => p ++ "." ++ joinDot ps

/-- `isBlocked(hostname, blocklist)`: the hostname itself, or any parent
domain `parts.slice(i).join(".")` for `1 ≤ i ≤ parts.length - 2`, is in
the blocklist. -/
def isBlocked (hostname : String) (blocklist : List String) : Bool :=
  blocklist.contains hostname ||
    (let parts := splitOnDot hostname
     (List.range' 1 (parts.length - 2)).any fun i =>
       blocklist.contains (joinDot (parts.drop i)))

/-- Spec-side exclusion predicate (for the refinement claim C4): a record is
excluded iff its hostname, or any non-trivial parent domain of the hostname
(a strict suffix of at least two labels), appears in the denylist. -/
def excludedSpec (hostname : String) (blocklist : List String) : Prop :=
  hostname ∈ blocklist ∨
    ∃ i, 1 ≤ i ∧ i < (splitOnDot hostname).length - 1 ∧
      joinDot ((splitOnDot hostname).drop i) ∈ blocklist

/-- The pure core of `downloadAndSample` once the parsed site list and
blocklist are in hand: filter blocked origins, then sample
`min(sampleSize, filtered.length)` records with the seeded sampler, the
effective seed being the given one or the clock (`seed ?? Date.now()`). -/
def downloadAndSampleCore (hostOf : Site → String) (allSites : List Site)
    (blocklist : List String) (sampleSize : ℕ) (seed : Option ℕ) (now : ℕ) : List Site :=
  let filtered := allSites.filter fun s => !isBlocked (hostOf s) blocklist
  let effectiveSeed := seed.getD now
  seededSample filtered (min sampleSize filtered.length) effectiveSeed

/-! ## Sharding (src/web-bench.ts lines 24-32 and 55-61): shard `k` of `m`
takes the contiguous slice `[start, end)` of the sampled sequence with
`chunkSize = ceil(N / m)`, `start = (k - 1) * chunkSize`,
`end = min(start + chunkSize, N)`. JS `arr.slice(start, end)` is embedded
as `(l.take end).drop start`; `Math.ceil(N / m)` as `(N + m - 1) / m` in
`Nat` arithmetic. -/

/-- The shard slice taken by web-bench.ts for shard `k` of `m` from the
sampled sequence `l`. -/
def shardSlice {α : Type} (l : List α) (k m : ℕ) : List α :=
  let chunkSize := (l.length + m - 1) / m
  let start := (k - 1) * chunkSize
  let stop := min (start + chunkSize) l.length
  (l.take stop).drop start

/-- Spec-side shard slice (for the refinement claim C7): the contiguous index
slice `[ceil(N/m)*(k-1), min(ceil(N/m)*k, N))` of the sampled sequence. -/
def shardSliceSpec {α : Type} (l : List α) (k m : ℕ) : List α :=
  let chunkSize := (l.length + m - 1) / m
  (l.take (min (chunkSize * k) l.length)).drop (chunkSize * (k - 1))

/-- Shard validation of web-bench.ts: `1 ≤ k ∧ k ≤ m` (violations are a
startup-fatal configuration error). -/
def validShard (k m : ℕ) : Prop := 1 ≤ k ∧ k ≤ m

/-! ## Worker pool (`runWithConcurrency`, src/web-bench.ts lines 79-94 and
src/unnamed/part_003 lines 49-64).

The source spawns `min(concurrency, items.length)` workers over a shared
cursor `nextIndex`; each worker loops: check `nextIndex < items.length`
and claim `index = nextIndex++` (one synchronous block, hence atomic on
the JS event loop), await the task for that index, repeat; a worker whose
check fails exits. The embedding is a small-step transition system over
pool states, with one atomic claim step, one completion step, and one
exit step; the scheduler (which worker moves) is nondeterministic. The
`claims` list records the order in which indices were claimed (each claim
is one invocation of the per-target task `fn`); the `completions` list
records the order in which tasks completed (each completion is one run of
the completion callback). -/

/-- The phase of one worker: about to check the loop condition, running the
task for a claimed index, or exited. -/
inductive WStatus where
  | idle
  | running (idx : ℕ)
  | exited
deriving DecidableEq, Repr

/-- A pool state: the shared cursor, the workers, the claim log and the
completion log. -/
structure PoolState where
  nextIndex : ℕ
  workers : List WStatus
  claims : List ℕ
  completions : List ℕ
deriving DecidableEq, Repr

/-- Initial pool state for `n` targets and concurrency `c`:
`min(c, n)` idle workers, cursor at 0, empty logs. -/
def initPool (n c : ℕ) : PoolState :=
  ⟨0, List.replicate (min c n) WStatus.idle, [], []⟩

/-- One scheduler step of the pool over `n` targets: an idle worker claims
the cursor index atomically (check and post-increment in one synchronous
block), a running worker completes its task and fires the completion
callback, or an idle worker whose loop check fails exits. -/
inductive PoolStep (n : ℕ) : PoolState → PoolState → Prop where
  | claim (s : PoolState) (l₁ l₂ : List WStatus)
      (hw : s.workers = l₁ ++ WStatus.idle :: l₂) (hn : s.nextIndex < n) :
      PoolStep n s ⟨s.nextIndex + 1, l₁ ++ WStatus.running s.nextIndex :: l₂,
        s.claims ++ [s.nextIndex], s.completions⟩
  | finish (s : PoolState) (l₁ l₂ : List WStatus) (i : ℕ)
      (hw : s.workers = l₁ ++ WStatus.running i :: l₂) :
      PoolStep n s ⟨s.nextIndex, l₁ ++ WStatus.idle :: l₂,
        s.claims, s.completions ++ [i]⟩
  | leave (s : PoolState) (l₁ l₂ : List WStatus)
      (hw : s.workers = l₁ ++ WStatus.idle :: l₂) (hn : n ≤ s.nextIndex) :
      PoolStep n s ⟨s.nextIndex, l₁ ++ WStatus.exited :: l₂,
        s.claims, s.completions⟩

/-- Pool states reachable from the initial state by scheduler steps. -/
def poolReachable (n c : ℕ) (s : PoolState) : Prop :=
  Relation.ReflTransGen (PoolStep n) (initPool n c) s

/-- Whether a worker is mid-task. -/
def isRunning : WStatus → Bool
  | WStatus.running _ => true
  | _ => false

/-- Number of tasks in flight: workers currently running a task. -/
def inFlight (s : PoolState) : ℕ := (s.workers.filter isRunning).length

/-- The indices currently being run by some worker. -/
def runningIndices (s : PoolState) : List ℕ :=
  s.workers.filterMap fun w =>
    match w with
    | WStatus.running i => some i
    | _ => none

/-- A terminal pool state: every worker has exited its loop. -/
def PoolTerminal (s : PoolState) : Prop := ∀ w ∈ s.workers, w = WStatus.exited

/-- Invariant of the pool over `n` targets and concurrency `c`. -/
structure PoolInv (n c : ℕ) (s : PoolState) : Prop where
  next_le : s.nextIndex ≤ n
  wlen : s.workers.length = min c n
  claims_eq : s.claims = List.range s.nextIndex
  perm : (s.completions ++ runningIndices s).Perm (List.range s.nextIndex)
  exited_bound : WStatus.exited ∈ s.workers → n ≤ s.nextIndex

/-! ## Task executor (`buildAuditCode` and `auditSite`,
src/src/web-bench/auditor.ts lines 160-499, the three-tool variant; the
two-tool variant in src/unnamed/part_008 has the same structure without
the IBM tool).

The in-page audit code wraps each tool invocation in its own try/catch;
the axe and IBM calls are additionally raced against the soft timeout
`TIMEOUT = Math.round(timeout * 0.8)` via `withTimeout`, which rejects
with `Error("audit timeout")` when the timer fires first; the AccessLint
call is synchronous and not raced. A tool that throws or loses the race
gets `timeMs = -1`, tool status `error`, an error message, and empty
violations; the page script still returns the full result object, and
`auditSite` then builds a `status: "ok"` SiteResult from it. Failures of
navigation, script injection or evaluation, and the hard deadline
(`2 * timeout`), are caught by the try/catch of `auditSite`, which
returns a `status: "error"` SiteResult carrying the message;
`page.close` failures in the `finally` block are swallowed. A failure of
`context.newPage()` happens before the try/catch and propagates.

Modelling: real time is abstracted to the number of milliseconds a tool
behavior takes; the race between a promise resolving after `d` ms and
the timer firing at `TIMEOUT` ms resolves in favor of the promise iff
`d ≤ TIMEOUT`; `Math.round(timeout * 0.8)` is `(8 * timeout + 5) / 10`
in `Nat` arithmetic. Which failure (if any) strikes a task is the
`TaskEvent` parameter; the per-tool behaviors of a task that reaches
`page.evaluate` are the `PageEnv` parameter. `deduplicateOverlapping`
(imported from wcag-mapping.ts but absent from the snapshot) is
abstracted as the parameter `dedupFn`; the `criteriaDetail` field, which
no claim reads, is omitted from the embedded record. -/

/-- An axe-core violation as shipped out of the page
(`{id, tags, nodeCount, impact}`). -/
structure AxeViolation where
  id : String
  tags : List String
  nodeCount : ℕ
  impact : Option String
deriving DecidableEq, Repr

/-- An AccessLint violation aggregate (`{ruleId, count, impact}`). -/
structure AlViolation where
  ruleId : String
  count : ℕ
  impact : String
deriving DecidableEq, Repr

/-- An IBM Equal Access violation aggregate (`{ruleId, count}`). -/
structure IbmViolation where
  ruleId : String
  count : ℕ
deriving DecidableEq, Repr

/-- Behavior of an asynchronous tool invocation raced against the soft
timeout: it resolves after some duration with violations, rejects with an
error, or never resolves. -/
inductive AsyncToolRun (V : Type) where
  | completes (durationMs : ℕ) (violations : List V)
  | throws (msg : String)
  | hangs
deriving DecidableEq, Repr

/-- Behavior of the synchronous AccessLint invocation: it returns after some
duration with violations or throws. -/
inductive SyncToolRun (V : Type) where
  | completes (durationMs : ℕ) (violations : List V)
  | throws (msg : String)
deriving DecidableEq, Repr

/-- The per-tool slice of the in-page result object:
`<tool>TimeMs, <tool>Status, <tool>Error, <tool>Violations`. -/
structure ToolSection (V : Type) where
  timeMs : ℤ
  toolStatus : Status
  toolError : Option String
  violations : List V
deriving DecidableEq, Repr

/-- The soft timeout of the in-page audit:
`Math.round(timeout * 0.8)`. -/
def softTimeout (timeout : ℕ) : ℕ := (8 * timeout + 5) / 10

/-- One `withTimeout`-wrapped tool block of the in-page audit code: the
try/catch around the raced invocation. -/
def runWrapped {V : Type} (tmo : ℕ) : AsyncToolRun V → ToolSection V
  | AsyncToolRun.completes d v =>
    if d ≤ tmo then ⟨(d : ℤ), Status.ok, none, v⟩
    else ⟨-1, Status.error, some "audit timeout", []⟩
  | AsyncToolRun.throws m => ⟨-1, Status.error, some m, []⟩
  | AsyncToolRun.hangs => ⟨-1, Status.error, some "audit timeout", []⟩

/-- The unraced AccessLint tool block of the in-page audit code: the
try/catch around the synchronous invocation. -/
def runSync {V : Type} : SyncToolRun V → ToolSection V
  | SyncToolRun.completes d v => ⟨(d : ℤ), Status.ok, none, v⟩
  | SyncToolRun.throws m => ⟨-1, Status.error, some m, []⟩

/-- The page environment a task sees when it reaches `page.evaluate`: the
DOM element count, the rule-to-WCAG maps read from the loaded tool
libraries, and the behavior of each tool invocation. -/
structure PageEnv where
  domElementCount : ℕ
  alRuleWcagMap : List (String × List String)
  ibmRuleWcagMap : List (String × List String)
  axeRun : AsyncToolRun AxeViolation
  alRun : SyncToolRun AlViolation
  ibmRun : AsyncToolRun IbmViolation
deriving Repr

/-- The object returned by the in-page audit code (BrowserAuditResult). -/
structure BrowserAuditResult where
  domElementCount : ℕ
  axe : ToolSection AxeViolation
  al : ToolSection AlViolation
  ibm : ToolSection IbmViolation
  alRuleWcagMap : List (String × List String)
  ibmRuleWcagMap : List (String × List String)
deriving Repr

/-- The in-page audit code built by `buildAuditCode(timeout)`: each tool in
its own try/catch, axe and IBM raced against the soft timeout, and the
full result object returned regardless of individual tool failures. -/
def runAuditCode (timeout : ℕ) (env : PageEnv) : BrowserAuditResult :=
  let tmo := softTimeout timeout
  { domElementCount := env.domElementCount
    axe := runWrapped tmo env.axeRun
    al := runSync env.alRun
    ibm := runWrapped tmo env.ibmRun
    alRuleWcagMap := env.alRuleWcagMap
    ibmRuleWcagMap := env.ibmRuleWcagMap }

/-- `axeTagToWcagCriterion`: tags matching `^wcag(\d)(\d)(\d+)$` become
dotted criteria `d1.d2.rest`; level tags and other tags map to nothing. -/
def axeTagToWcagCriterion (tag : String) : Option String :=
  match tag.toList with
  | 'w' :: 'c' :: 'a' :: 'g' :: d1 :: d2 :: ds =>
    if d1.isDigit && d2.isDigit && !ds.isEmpty && ds.all Char.isDigit then
      some (String.mk (d1 :: '.' :: d2 :: '.' :: ds))
    else none
  | _ => none

/-- `extractAxeWcagCriteria`: all WCAG criteria of a violation tag list. -/
def extractAxeWcagCriteria (tags : List String) : List String :=
  tags.filterMap axeTagToWcagCriterion

/-- Lookup in a rule-to-WCAG map with `?? []` default. -/
def mapLookup (m : List (String × List String)) (k : String) : List String :=
  match m.find? (fun p => p.1 == k) with
  | some p => p.2
  | none => []

/-- JS `[...set].sort()` over a string set: sorted deduplicated list. -/
def sortStrings (l : List String) : List String :=
  l.dedup.mergeSort (fun a b => a ≤ b)

/-- The sorted axe criteria set of `buildCriteriaDetail`: criteria of each
violation tag list, deduplicated per violation by `deduplicateOverlapping`,
collected into a set. -/
def axeCriteriaSorted (dedupFn : List String → List String)
    (violations : List AxeViolation) : List String :=
  sortStrings (violations.flatMap fun v => dedupFn (extractAxeWcagCriteria v.tags))

/-- The sorted AccessLint criteria set of `buildCriteriaDetail`: criteria of
each violation via the rule-to-WCAG map. -/
def alCriteriaSorted (m : List (String × List String))
    (violations : List AlViolation) : List String :=
  sortStrings (violations.flatMap fun v => mapLookup m v.ruleId)

/-- The sorted IBM criteria set of `buildCriteriaDetail`. -/
def ibmCriteriaSorted (m : List (String × List String))
    (violations : List IbmViolation) : List String :=
  sortStrings (violations.flatMap fun v => mapLookup m v.ruleId)

/-- The embedded SiteResult record written per target (without the
`criteriaDetail` breakdown, which no claim reads). -/
structure SiteResult where
  origin : String
  rank : ℕ
  status : Status
  error : Option String
  domElementCount : ℕ
  axeTimeMs : ℤ
  alTimeMs : ℤ
  ibmTimeMs : ℤ
  axeStatus : Status
  alStatus : Status
  ibmStatus : Status
  axeError : Option String
  alError : Option String
  ibmError : Option String
  axeViolationCount : ℕ
  alViolationCount : ℕ
  ibmViolationCount : ℕ
  axeWcagCriteria : List String
  alWcagCriteria : List String
  ibmWcagCriteria : List String
  timestamp : String
deriving DecidableEq, Repr

/-- What strikes a task: a `context.newPage()` failure (before the
try/catch), a navigation / script-injection / evaluation failure, the
hard deadline firing first, or reaching `page.evaluate` with the given
page environment. -/
inductive TaskEvent where
  | newPageFail (msg : String)
  | navFail (msg : String)
  | scriptFail (msg : String)
  | evalFail (msg : String)
  | hardTimeout
  | completes (env : PageEnv)

/-- The `status: "error"` SiteResult built by the catch branch of
`auditSite`. -/
def errorSiteResult (origin : String) (rank : ℕ) (msg timestamp : String) : SiteResult :=
  ⟨origin, rank, Status.error, some msg, 0, 0, 0, 0,
    Status.error, Status.error, Status.error, none, none, none,
    0, 0, 0, [], [], [], timestamp⟩

/-- The `status: "ok"` SiteResult built by `auditSite` from the in-page
result object. -/
def okSiteResult (dedupFn : List String → List String) (origin : String) (rank : ℕ)
    (timeout : ℕ) (timestamp : String) (env : PageEnv) : SiteResult :=
  let raw := runAuditCode timeout env
  { origin := origin
    rank := rank
    status := Status.ok
    error := none
    domElementCount := raw.domElementCount
    axeTimeMs := raw.axe.timeMs
    alTimeMs := raw.al.timeMs
    ibmTimeMs := raw.ibm.timeMs
    axeStatus := raw.axe.toolStatus
    alStatus := raw.al.toolStatus
    ibmStatus := raw.ibm.toolStatus
    axeError := raw.axe.toolError
    alError := raw.al.toolError
    ibmError := raw.ibm.toolError
    axeViolationCount := (raw.axe.violations.map fun v => v.nodeCount).sum
    alViolationCount := (raw.al.violations.map fun v => v.count).sum
    ibmViolationCount := (raw.ibm.violations.map fun v => v.count).sum
    axeWcagCriteria := axeCriteriaSorted dedupFn raw.axe.violations
    alWcagCriteria := alCriteriaSorted raw.alRuleWcagMap raw.al.violations
    ibmWcagCriteria := ibmCriteriaSorted raw.ibmRuleWcagMap raw.ibm.violations
    timestamp := timestamp }

/-- The distinct hard-deadline message
`` `hard timeout after ${hardTimeout}ms` `` with `hardTimeout = 2 * timeout`. -/
def hardTimeoutMsg (timeout : ℕ) : String :=
  "hard timeout after " ++ toString (2 * timeout) ++ "ms"

/-- `auditSite(context, origin, rank, timeout)` under a given task event:
a `newPage` failure propagates (it happens before the try/catch); every
other failure is caught and becomes a `status: "error"` SiteResult; a task
that reaches `page.evaluate` produces the `status: "ok"` SiteResult of the
in-page result object. -/
def auditSite (dedupFn : List String → List String) (origin : String) (rank : ℕ)
    (timeout : ℕ) (timestamp : String) : TaskEvent → Except String SiteResult
  | TaskEvent.newPageFail m => Except.error m
  | TaskEvent.navFail m => Except.ok (errorSiteResult origin rank m timestamp)
  | TaskEvent.scriptFail m => Except.ok (errorSiteResult origin rank m timestamp)
  | TaskEvent.evalFail m => Except.ok (errorSiteResult origin rank m timestamp)
  | TaskEvent.hardTimeout =>
    Except.ok (errorSiteResult origin rank (hardTimeoutMsg timeout) timestamp)
  | TaskEvent.completes env =>
    Except.ok (okSiteResult dedupFn origin rank timeout timestamp env)

/-- The task-level error events of C9: navigation failure, script-injection
failure, evaluation failure, hard-deadline expiry. -/
def isTaskError : TaskEvent → Bool
  | TaskEvent.navFail _ => true
  | TaskEvent.scriptFail _ => true
  | TaskEvent.evalFail _ => true
  | TaskEvent.hardTimeout => true
  | _ => false

/-- The message a task-level error carries into the SiteResult. -/
def taskErrorMsg (timeout : ℕ) : TaskEvent → String
  | TaskEvent.navFail m => m
  | TaskEvent.scriptFail m => m
  | TaskEvent.evalFail m => m
  | TaskEvent.hardTimeout => hardTimeoutMsg timeout
  | _ => ""

/-! ## MARKER: definitions above, theorems below -/

theorem tallyStep_total (criterion : String) (acc : Cells) (r : ConcordanceInput) :
    (tallyStep criterion acc r).total = acc.total + 1 := by
  unfold tallyStep
  by_cases h1 : r.axeWcagCriteria.contains criterion <;>
    by_cases h2 : r.alWcagCriteria.contains criterion <;>
      simp only [h1, h2, Bool.and_self, Bool.and_true, Bool.true_and, Bool.and_false,
        Bool.false_and, if_true, if_false, Bool.false_eq_true, ite_true, ite_false] <;>
      simp [Cells.total] <;> omega

theorem tallyCriterion_total_aux (criterion : String) (rs : List ConcordanceInput) :
    ∀ acc : Cells, (rs.foldl (tallyStep criterion) acc).total = acc.total + rs.length := by
  induction rs with
  | nil => intro acc; simp
  | cons r rs ih =>
    intro acc
    simp only [List.foldl_cons, List.length_cons, ih, tallyStep_total]
    omega

/-- The four contingency cells of a criterion tally sum to the number of
results tallied. -/
theorem tallyCriterion_total (criterion : String) (rs : List ConcordanceInput) :
    (tallyCriterion criterion rs).total = rs.length := by
  unfold tallyCriterion
  rw [tallyCriterion_total_aux criterion rs ⟨0, 0, 0, 0⟩]
  simp [Cells.total]

theorem bucketStep_bucketTotal (axeHas alHas ibmHas : Bool) (t : Tally3) :
    (bucketStep axeHas alHas ibmHas t).bucketTotal = t.bucketTotal + 1 := by
  cases axeHas <;> cases alHas <;> cases ibmHas <;>
    simp [bucketStep, Tally3.bucketTotal] <;> omega

theorem tally3Step_bucketTotal (criterion : String) (t : Tally3) (r : ConcordanceInput3) :
    (tally3Step criterion t r).bucketTotal = t.bucketTotal + 1 := by
  unfold tally3Step
  have h := bucketStep_bucketTotal (r.axeWcagCriteria.contains criterion)
    (r.alWcagCriteria.contains criterion)
    ((r.ibmWcagCriteria.getD []).contains criterion) t
  unfold Tally3.bucketTotal at h ⊢
  simpa using h

theorem tally3_bucketTotal_aux (criterion : String) (rs : List ConcordanceInput3) :
    ∀ t : Tally3, (rs.foldl (tally3Step criterion) t).bucketTotal = t.bucketTotal + rs.length := by
  induction rs with
  | nil => intro t; simp
  | cons r rs ih =>
    intro t
    simp only [List.foldl_cons, List.length_cons, ih, tally3Step_bucketTotal]
    omega

/-- The four multi-way buckets of a three-tool criterion tally sum to the
number of results tallied. -/
theorem tally3_bucketTotal (criterion : String) (rs : List ConcordanceInput3) :
    (tally3 criterion rs).bucketTotal = rs.length := by
  unfold tally3
  rw [tally3_bucketTotal_aux criterion rs ⟨0, 0, 0, 0, ⟨0, 0, 0, 0⟩, ⟨0, 0, 0, 0⟩, ⟨0, 0, 0, 0⟩⟩]
  simp [Tally3.bucketTotal]

/-- The three-tool helper kappa agrees with the spec formula whenever the
table is nonempty. -/
theorem cohenKappa_eq_kappaSpec (a b c d : ℕ) (h : 0 < a + b + c + d) :
    cohenKappa a b c d = kappaSpec a b c d := by
  have hne : ¬(a + b + c + d = 0) := by omega
  simp only [cohenKappa, kappaSpec, poSpec, p1Spec, p2Spec, peSpec, nSpec, hne, if_false]
  push_cast
  rfl

/-- Every entry of the two-tool concordance output has its four cells summing
to the number of ok results, and that number is positive. -/
theorem calculateConcordance_cells (results : List ConcordanceInput) :
    ∀ e ∈ calculateConcordance results,
      e.bothFound + e.axeOnly + e.alOnly + e.neitherFound =
        (results.filter fun r => r.status == Status.ok).length ∧
      0 < (results.filter fun r => r.status == Status.ok).length := by
  intro e he
  unfold calculateConcordance at he
  by_cases h0 : (results.filter fun r => r.status == Status.ok).length = 0
  · simp only [h0, if_true] at he
    simp at he
  · simp only [h0, if_false] at he
    obtain ⟨criterion, _, rfl⟩ := List.mem_map.mp he
    have htot := tallyCriterion_total criterion (results.filter fun r => r.status == Status.ok)
    unfold Cells.total at htot
    simp only []
    constructor
    · exact htot
    · omega

/-- Every entry of the two-tool concordance output reports the spec kappa of
its own four cells. -/
theorem calculateConcordance_kappa (results : List ConcordanceInput) :
    ∀ e ∈ calculateConcordance results,
      e.cohenKappa = kappaSpec e.bothFound e.axeOnly e.alOnly e.neitherFound := by
  intro e he
  unfold calculateConcordance at he
  by_cases h0 : (results.filter fun r => r.status == Status.ok).length = 0
  · simp only [h0, if_true] at he
    simp at he
  · simp only [h0, if_false] at he
    obtain ⟨criterion, _, rfl⟩ := List.mem_map.mp he
    have htot := tallyCriterion_total criterion (results.filter fun r => r.status == Status.ok)
    unfold Cells.total at htot
    set cells := tallyCriterion criterion (results.filter fun r => r.status == Status.ok) with hc
    have hn : ((cells.bothFound : ℚ) + (cells.axeOnly : ℚ) + (cells.alOnly : ℚ) +
        (cells.neitherFound : ℚ)) =
        (((results.filter fun r => r.status == Status.ok).length : ℕ) : ℚ) := by
      exact_mod_cast htot
    simp only [kappaSpec, poSpec, p1Spec, p2Spec, peSpec, nSpec, hn]

/-- Every entry of the three-tool concordance output has its four multi-way
buckets summing to the number of ok results. -/
theorem calculateConcordance3_buckets (results : List ConcordanceInput3) :
    ∀ e ∈ calculateConcordance3 results,
      e.allThree + e.twoOfThree + e.oneOnly + e.noneFound =
        (results.filter fun r => r.status == Status.ok).length := by
  intro e he
  unfold calculateConcordance3 at he
  by_cases h0 : (results.filter fun r => r.status == Status.ok).length = 0
  · simp only [h0, if_true] at he
    simp at he
  · simp only [h0, if_false] at he
    obtain ⟨criterion, _, rfl⟩ := List.mem_map.mp he
    have htot := tally3_bucketTotal criterion (results.filter fun r => r.status == Status.ok)
    unfold Tally3.bucketTotal at htot
    simpa using htot

/-- Filtering ok results is idempotent, so error results contribute nothing to
the two-tool concordance output. -/
theorem calculateConcordance_filter_ok (results : List ConcordanceInput) :
    calculateConcordance results =
      calculateConcordance (results.filter fun r => r.status == Status.ok) := by
  unfold calculateConcordance
  rw [List.filter_filter]
  simp [Bool.and_self]

/-- Filtering ok results is idempotent, so error results contribute nothing to
the three-tool concordance output. -/
theorem calculateConcordance3_filter_ok (results : List ConcordanceInput3) :
    calculateConcordance3 results =
      calculateConcordance3 (results.filter fun r => r.status == Status.ok) := by
  unfold calculateConcordance3
  rw [List.filter_filter]
  simp [Bool.and_self]

theorem listSwap_length {α : Type} (l : List α) (i j : ℕ) :
    (listSwap l i j).length = l.length := by
  unfold listSwap
  split <;> simp

theorem fisherYatesAux_length {α : Type} :
    ∀ (i : ℕ) (arr : List α) (seed : ℕ), (fisherYatesAux arr seed i).length = arr.length := by
  intro i
  induction i with
  | zero => intro arr seed; rfl
  | succ i ih =>
    intro arr seed
    unfold fisherYatesAux
    rw [ih, listSwap_length]

/-- The seeded sampler returns exactly `min n items.length` elements. -/
theorem seededSample_length {α : Type} (items : List α) (n seed : ℕ) :
    (seededSample items n seed).length = min n items.length := by
  unfold seededSample
  rw [List.length_take, fisherYatesAux_length]

theorem listSwap_subset {α : Type} (l : List α) (i j : ℕ) :
    ∀ a ∈ listSwap l i j, a ∈ l := by
  unfold listSwap
  split
  · next a b hi hj =>
    intro x hx
    rcases List.mem_or_eq_of_mem_set hx with hx' | rfl
    · rcases List.mem_or_eq_of_mem_set hx' with hx'' | rfl
      · exact hx''
      · exact List.getElem?_mem hj
    · exact List.getElem?_mem hi
  · exact fun x hx => hx

theorem fisherYatesAux_subset {α : Type} :
    ∀ (i : ℕ) (arr : List α) (seed : ℕ), ∀ a ∈ fisherYatesAux arr seed i, a ∈ arr := by
  intro i
  induction i with
  | zero => intro arr seed a ha; exact ha
  | succ i ih =>
    intro arr seed a ha
    unfold fisherYatesAux at ha
    exact listSwap_subset _ _ _ a (ih _ _ a ha)

/-- Every sampled element comes from the input list. -/
theorem seededSample_subset {α : Type} (items : List α) (n seed : ℕ) :
    ∀ a ∈ seededSample items n seed, a ∈ items := by
  intro a ha
  exact fisherYatesAux_subset _ _ _ a (List.take_subset n _ ha)

theorem isBlocked_iff (hostname : String) (blocklist : List String) :
    isBlocked hostname blocklist = true ↔ excludedSpec hostname blocklist := by
  unfold isBlocked excludedSpec
  simp only [Bool.or_eq_true, List.any_eq_true, List.mem_range'_1]
  constructor
  · rintro (h | ⟨i, ⟨h1, h2⟩, h3⟩)
    · left; simpa using h
    · right
      refine ⟨i, h1, by omega, by simpa using h3⟩
  · rintro (h | ⟨i, h1, h2, h3⟩)
    · left; simpa using h
    · right
      refine ⟨i, ⟨h1, by omega⟩, by simpa using h3⟩

/-- C4: a raw record is excluded iff its hostname or any non-trivial parent
domain of the hostname is in the denylist (for `a.b.example.com`:
`b.example.com` and `example.com`, but not the bare TLD); hostname
`www.example.com` is excluded under denylist `{example.com}` and retained
under `{other.com}`; and the filter is applied before sampling, so every
sampled record is unblocked. -/
theorem c4_exclusion_filter :
    (∀ (hostname : String) (blocklist : List String),
      isBlocked hostname blocklist = true ↔ excludedSpec hostname blocklist) ∧
    isBlocked "www.example.com" ["example.com"] = true ∧
    isBlocked "www.example.com" ["other.com"] = false ∧
    (∀ (hostOf : Site → String) (allSites : List Site) (blocklist : List String)
      (sampleSize : ℕ) (seed : Option ℕ) (now : ℕ),
      ∀ s ∈ downloadAndSampleCore hostOf allSites blocklist sampleSize seed now,
        isBlocked (hostOf s) blocklist = false) := by
  refine ⟨isBlocked_iff, by decide, by decide, ?_⟩
  intro hostOf allSites blocklist sampleSize seed now s hs
  have hmem : s ∈ allSites.filter fun s => !isBlocked (hostOf s) blocklist :=
    seededSample_subset _ _ _ s hs
  have := List.of_mem_filter hmem
  simpa using this

/-- Witness for C4 exercising the general `iff` at a concrete input: the
hostname `a.b.example.com` under denylist `{example.com}` is excluded. -/
theorem c4_exclusion_filter_witness :
    isBlocked "a.b.example.com" ["example.com"] = true ∧
    excludedSpec "a.b.example.com" ["example.com"] :=
  ⟨by decide, (c4_exclusion_filter.1 "a.b.example.com" ["example.com"]).mp (by decide)⟩

/-- C5: the sample length equals `min(size, |filtered population|)` for every
population, size, and seed. -/
theorem c5_sample_bound (hostOf : Site → String) (allSites : List Site)
    (blocklist : List String) (sampleSize : ℕ) (seed : Option ℕ) (now : ℕ) :
    (downloadAndSampleCore hostOf allSites blocklist sampleSize seed now).length =
      min sampleSize (allSites.filter fun s => !isBlocked (hostOf s) blocklist).length := by
  unfold downloadAndSampleCore
  rw [seededSample_length]
  omega

/-- C6: the sampler is deterministic — two invocations with identical inputs
return identical output sequences, and with an explicit seed the output is
independent of the clock (`Date.now()` fallback), hence identical across
runs and machines. -/
theorem c6_sampler_deterministic :
    (∀ (hostOf : Site → String) (allSites : List Site) (blocklist : List String)
      (sampleSize : ℕ) (seed : Option ℕ) (now : ℕ),
      downloadAndSampleCore hostOf allSites blocklist sampleSize seed now =
        downloadAndSampleCore hostOf allSites blocklist sampleSize seed now) ∧
    (∀ (hostOf : Site → String) (allSites : List Site) (blocklist : List String)
      (sampleSize : ℕ) (s now₁ now₂ : ℕ),
      downloadAndSampleCore hostOf allSites blocklist sampleSize (some s) now₁ =
        downloadAndSampleCore hostOf allSites blocklist sampleSize (some s) now₂) := by
  constructor
  · intro _ _ _ _ _ _
    rfl
  · intro hostOf allSites blocklist sampleSize s now₁ now₂
    unfold downloadAndSampleCore
    rfl

theorem poolInv_init (n c : ℕ) : PoolInv n c (initPool n c) := by
  refine ⟨by simp [initPool], by simp [initPool], by simp [initPool], ?_, ?_⟩
  · simp [initPool, runningIndices, List.filterMap_replicate]
  · intro hmem
    have := List.eq_of_mem_replicate hmem
    simp at this

theorem poolInv_step {n c : ℕ} {s s' : PoolState} (hs : PoolInv n c s)
    (h : PoolStep n s s') : PoolInv n c s' := by
  obtain ⟨h1, h2, h3, h4, h5⟩ := hs
  cases h with
  | claim l₁ l₂ hw hn =>
    have hrun : runningIndices ⟨s.nextIndex + 1, l₁ ++ WStatus.running s.nextIndex :: l₂,
        s.claims ++ [s.nextIndex], s.completions⟩ =
        l₁.filterMap (fun w => match w with | WStatus.running i => some i | _ => none) ++
          s.nextIndex ::
            l₂.filterMap (fun w => match w with | WStatus.running i => some i | _ => none) := by
      simp [runningIndices, List.filterMap_append]
    have hrunold : runningIndices s =
        l₁.filterMap (fun w => match w with | WStatus.running i => some i | _ => none) ++
          l₂.filterMap (fun w => match w with | WStatus.running i => some i | _ => none) := by
      simp [runningIndices, hw, List.filterMap_append]
    refine ⟨by simp; omega, ?_, ?_, ?_, ?_⟩
    · simp only []
      rw [hw] at h2
      simpa using h2
    · simp only []
      rw [h3, List.range_succ]
    · simp only [hrun]
      have step1 : (s.completions ++
          (l₁.filterMap (fun w => match w with | WStatus.running i => some i | _ => none) ++
            s.nextIndex ::
              l₂.filterMap (fun w => match w with | WStatus.running i => some i | _ => none))).Perm
          (s.nextIndex :: (s.completions ++ runningIndices s)) := by
        rw [hrunold]
        exact (List.perm_middle.append_left s.completions).trans List.perm_middle
      refine step1.trans ?_
      rw [List.range_succ]
      exact (h4.cons s.nextIndex).trans
        (@List.perm_append_comm ℕ [s.nextIndex] (List.range s.nextIndex))
    · intro hmem
      simp only [List.mem_append, List.mem_cons] at hmem
      have : WStatus.exited ∈ s.workers := by
        rw [hw]
        simp only [List.mem_append, List.mem_cons]
        rcases hmem with hm | hm | hm
        · exact Or.inl hm
        · exact absurd hm (by simp)
        · exact Or.inr (Or.inr hm)
      have := h5 this
      omega
  | finish l₁ l₂ i hw =>
    have hrun : runningIndices ⟨s.nextIndex, l₁ ++ WStatus.idle :: l₂,
        s.claims, s.completions ++ [i]⟩ =
        l₁.filterMap (fun w => match w with | WStatus.running j => some j | _ => none) ++
          l₂.filterMap (fun w => match w with | WStatus.running j => some j | _ => none) := by
      simp [runningIndices, List.filterMap_append]
    have hrunold : runningIndices s =
        l₁.filterMap (fun w => match w with | WStatus.running j => some j | _ => none) ++
          i :: l₂.filterMap (fun w => match w with | WStatus.running j => some j | _ => none) := by
      simp [runningIndices, hw, List.filterMap_append]
    refine ⟨h1, ?_, h3, ?_, ?_⟩
    · simp only []
      rw [hw] at h2
      simpa using h2
    · simp only [hrun]
      refine List.Perm.trans ?_ h4
      rw [hrunold]
      have e : (s.completions ++ [i]) ++
            (l₁.filterMap (fun w => match w with | WStatus.running j => some j | _ => none) ++
              l₂.filterMap (fun w => match w with | WStatus.running j => some j | _ => none)) =
          s.completions ++ (i ::
              (l₁.filterMap (fun w => match w with | WStatus.running j => some j | _ => none) ++
                l₂.filterMap (fun w => match w with | WStatus.running j => some j | _ => none))) := by
        simp
      rw [e]
      exact List.Perm.append_left s.completions List.perm_middle.symm
    · intro hmem
      apply h5
      rw [hw]
      simp only [List.mem_append, List.mem_cons] at hmem ⊢
      rcases hmem with hm | hm | hm
      · exact Or.inl hm
      · exact absurd hm (by simp)
      · exact Or.inr (Or.inr hm)
  | leave l₁ l₂ hw hn =>
    have hrun : runningIndices ⟨s.nextIndex, l₁ ++ WStatus.exited :: l₂,
        s.claims, s.completions⟩ =
        l₁.filterMap (fun w => match w with | WStatus.running j => some j | _ => none) ++
          l₂.filterMap (fun w => match w with | WStatus.running j => some j | _ => none) := by
      simp [runningIndices, List.filterMap_append]
    have hrunold : runningIndices s =
        l₁.filterMap (fun w => match w with | WStatus.running j => some j | _ => none) ++
          l₂.filterMap (fun w => match w with | WStatus.running j => some j | _ => none) := by
      simp [runningIndices, hw, List.filterMap_append]
    refine ⟨h1, ?_, h3, ?_, fun _ => hn⟩
    · simp only []
      rw [hw] at h2
      simpa using h2
    · simp only [hrun]
      rw [← hrunold]
      exact h4

theorem poolInv_of_reachable {n c : ℕ} {s : PoolState} (h : poolReachable n c s) :
    PoolInv n c s := by
  unfold poolReachable at h
  induction h with
  | refl => exact poolInv_init n c
  | tail _ hstep ih => exact poolInv_step ih hstep

/-- C3: for every finite target sequence of length `n` and every concurrency
`c ≥ 1`, in every reachable state of the worker pool the indices are
claimed in input-sequence order (the claim log is always `range` of the
cursor), at most `min(c, n)` tasks are in flight, and in every terminal
state the per-target task was invoked exactly once per target (the claim
log is exactly `range n`) and the completion callback fired exactly once
per target (the completion log is a permutation of `range n`, so exactly
`n` completions, each target counted once). -/
theorem c3_worker_pool (n c : ℕ) (hc : 1 ≤ c) (s : PoolState) (h : poolReachable n c s) :
    s.claims = List.range s.nextIndex ∧
    inFlight s ≤ min c n ∧
    (PoolTerminal s →
      s.claims = List.range n ∧
      s.completions.Perm (List.range n) ∧
      s.completions.length = n ∧
      ∀ i < n, s.completions.count i = 1) := by
  obtain ⟨h1, h2, h3, h4, h5⟩ := poolInv_of_reachable h
  refine ⟨h3, ?_, ?_⟩
  · unfold inFlight
    calc (s.workers.filter isRunning).length
        ≤ s.workers.length := List.length_filter_le _ _
      _ = min c n := h2
  · intro hterm
    have hnx : s.nextIndex = n := by
      rcases Nat.eq_zero_or_pos n with h0 | hpos
      · omega
      · have hne : s.workers ≠ [] := by
          intro hnil
          rw [hnil] at h2
          simp at h2
          omega
        obtain ⟨w, hwmem⟩ := List.exists_mem_of_ne_nil s.workers hne
        have hweq := hterm w hwmem
        rw [hweq] at hwmem
        exact le_antisymm h1 (h5 hwmem)
    have hrun : runningIndices s = [] := by
      unfold runningIndices
      rw [List.filterMap_eq_nil_iff]
      intro w hw
      rw [hterm w hw]
    have hperm : s.completions.Perm (List.range n) := by
      have h4' := h4
      rw [hrun, List.append_nil, hnx] at h4'
      exact h4'
    refine ⟨by rw [h3, hnx], hperm, ?_, ?_⟩
    · rw [hperm.length_eq, List.length_range]
    · intro i hi
      rw [hperm.count_eq]
      exact List.count_eq_one_of_mem (List.nodup_range n) (List.mem_range.mpr hi)

/-- Witness for C3: with one target and concurrency 2, a full concrete
scheduler trace (claim index 0, complete it, exit) reaches the terminal
state whose claim log is `range 1`, whose completion log is a permutation
of `range 1`, and whose in-flight count is within the bound. -/
theorem c3_worker_pool_witness :
    (1 ≤ 2) ∧
    inFlight ⟨1, [WStatus.exited], [0], [0]⟩ ≤ min 2 1 ∧
    ([0] : List ℕ) = List.range 1 ∧
    List.Perm ([0] : List ℕ) (List.range 1) := by
  have s1 : PoolStep 1 (initPool 1 2) ⟨1, [WStatus.running 0], [0], []⟩ :=
    PoolStep.claim (initPool 1 2) [] [] rfl (by decide)
  have s2 : PoolStep 1 ⟨1, [WStatus.running 0], [0], []⟩ ⟨1, [WStatus.idle], [0], [0]⟩ :=
    PoolStep.finish ⟨1, [WStatus.running 0], [0], []⟩ [] [] 0 rfl
  have s3 : PoolStep 1 ⟨1, [WStatus.idle], [0], [0]⟩ ⟨1, [WStatus.exited], [0], [0]⟩ :=
    PoolStep.leave ⟨1, [WStatus.idle], [0], [0]⟩ [] [] rfl (by decide)
  have hreach : poolReachable 1 2 ⟨1, [WStatus.exited], [0], [0]⟩ :=
    Relation.ReflTransGen.tail
      (Relation.ReflTransGen.tail (Relation.ReflTransGen.single s1) s2) s3
  have hterm : PoolTerminal ⟨1, [WStatus.exited], [0], [0]⟩ := by
    intro w hw
    exact List.mem_singleton.mp hw
  obtain ⟨hclaims, hflight, hfin⟩ := c3_worker_pool 1 2 (by decide) _ hreach
  obtain ⟨hc1, hc2, _, _⟩ := hfin hterm
  exact ⟨by decide, hflight, hc1, hc2⟩

/-- C7: for every sampled sequence and every valid shard configuration
`1 ≤ k ≤ m`, shard `k` of `m` is exactly the contiguous index slice
`[ceil(N/m)*(k-1), min(ceil(N/m)*k, N))` of the sampled sequence: the
computed shard equals the spec slice, and its `j`-th element is the
element of the sampled sequence at index `ceil(N/m)*(k-1) + j` whenever
that index is below `min(ceil(N/m)*k, N)`. The slice is a pure function
of the sequence and the shard configuration, hence independent of
concurrency or timing. -/
theorem c7_shard_slice {α : Type} (l : List α) (k m : ℕ) (h : validShard k m) :
    shardSlice l k m = shardSliceSpec l k m ∧
    ∀ j : ℕ,
      (shardSlice l k m)[j]? =
        if ((l.length + m - 1) / m) * (k - 1) + j <
            min (((l.length + m - 1) / m) * k) l.length
        then l[((l.length + m - 1) / m) * (k - 1) + j]?
        else none := by
  obtain ⟨hk, _⟩ := h
  have hstart : (k - 1) * ((l.length + m - 1) / m) =
      ((l.length + m - 1) / m) * (k - 1) := Nat.mul_comm _ _
  have hkey : ((l.length + m - 1) / m) * (k - 1) + (l.length + m - 1) / m =
      ((l.length + m - 1) / m) * k := by
    have hsub : k - 1 + 1 = k := by omega
    calc ((l.length + m - 1) / m) * (k - 1) + (l.length + m - 1) / m
        = ((l.length + m - 1) / m) * (k - 1 + 1) := by ring
      _ = ((l.length + m - 1) / m) * k := by rw [hsub]
  constructor
  · unfold shardSlice shardSliceSpec
    simp only [hstart]
    simp only [hkey]
  · intro j
    unfold shardSlice
    simp only [List.getElem?_drop, List.getElem?_take, hstart]
    simp only [hkey]

/-- Witness for C7: the sampled sequence `[10, 20, 30, 40, 50]` with shard 2
of 2 yields the slice `[40, 50]`, whose element 0 is the element of the
full sequence at index `ceil(5/2) * 1 = 3`. -/
theorem c7_shard_slice_witness :
    shardSlice [10, 20, 30, 40, 50] 2 2 = shardSliceSpec [10, 20, 30, 40, 50] 2 2 ∧
    shardSlice [10, 20, 30, 40, 50] 2 2 = [40, 50] ∧
    ([10, 20, 30, 40, 50].take (min 6 5)).drop 3 = [40, 50] :=
  ⟨(c7_shard_slice [10, 20, 30, 40, 50] 2 2 ⟨by decide, by decide⟩).1,
    by decide, by decide⟩

/-- C9: for every target and every error raised during its task (navigation
failure, script-injection failure, evaluation error, or hard-deadline
expiry), `auditSite` does not propagate the exception to the worker pool:
it returns (rather than throws) a `status = error` AuditResult carrying
the error message, so it is total over those events. -/
theorem c9_auditSite_total (dedupFn : List String → List String) (origin : String)
    (rank timeout : ℕ) (timestamp : String) (ev : TaskEvent)
    (h : isTaskError ev = true) :
    auditSite dedupFn origin rank timeout timestamp ev =
      Except.ok (errorSiteResult origin rank (taskErrorMsg timeout ev) timestamp) ∧
    (errorSiteResult origin rank (taskErrorMsg timeout ev) timestamp).status = Status.error ∧
    (errorSiteResult origin rank (taskErrorMsg timeout ev) timestamp).error =
      some (taskErrorMsg timeout ev) := by
  cases ev <;> simp_all [auditSite, isTaskError, taskErrorMsg, errorSiteResult]

/-- Witness for C9 at a concrete navigation failure: the task yields a
returned (not thrown) error AuditResult carrying the message. -/
theorem c9_auditSite_total_witness :
    auditSite (fun l => l) "https://example.com" 7 30000 "t0"
        (TaskEvent.navFail "net::ERR_FAILED") =
      Except.ok (errorSiteResult "https://example.com" 7
        (taskErrorMsg 30000 (TaskEvent.navFail "net::ERR_FAILED")) "t0") ∧
    (errorSiteResult "https://example.com" 7
      (taskErrorMsg 30000 (TaskEvent.navFail "net::ERR_FAILED")) "t0").status =
        Status.error ∧
    (errorSiteResult "https://example.com" 7
      (taskErrorMsg 30000 (TaskEvent.navFail "net::ERR_FAILED")) "t0").error =
        some (taskErrorMsg 30000 (TaskEvent.navFail "net::ERR_FAILED")) :=
  c9_auditSite_total (fun l => l) "https://example.com" 7 30000 "t0"
    (TaskEvent.navFail "net::ERR_FAILED") (by decide)

/-- C2 counterexample: a task whose axe invocation exceeds the soft timeout
(duration 801 ms against `softTimeout 1000 = 800`) produces an AuditResult
whose task-level status is `ok`, not `error` — the timeout is recorded at
tool level only, refuting the claim that the task-level status becomes
`error` with a timeout message. -/
theorem c2_counterexample :
    softTimeout 1000 < 801 ∧
    auditSite (fun l => l) "https://example.com" 1 1000 "t0"
        (TaskEvent.completes ⟨0, [], [], AsyncToolRun.completes 801 [],
          SyncToolRun.completes 5 [], AsyncToolRun.completes 5 []⟩) =
      Except.ok (okSiteResult (fun l => l) "https://example.com" 1 1000 "t0"
        ⟨0, [], [], AsyncToolRun.completes 801 [], SyncToolRun.completes 5 [],
          AsyncToolRun.completes 5 []⟩) ∧
    (okSiteResult (fun l => l) "https://example.com" 1 1000 "t0"
      ⟨0, [], [], AsyncToolRun.completes 801 [], SyncToolRun.completes 5 [],
        AsyncToolRun.completes 5 []⟩).status = Status.ok ∧
    ¬((okSiteResult (fun l => l) "https://example.com" 1 1000 "t0"
      ⟨0, [], [], AsyncToolRun.completes 801 [], SyncToolRun.completes 5 [],
        AsyncToolRun.completes 5 []⟩).status = Status.error) :=
  ⟨by decide, rfl, rfl, by decide⟩

/-- C2 (amended): for every target whose analyzer invocation — the raced
axe call or the raced IBM call — exceeds the soft timeout (80% of the
per-target timeout), resolving too late or never, the task still
completes its lifecycle and produces an AuditResult, with the timeout
recorded at tool level: the timed-out tool gets `toolStatus = error`,
`timeMs = -1` and the message "audit timeout", while the task-level
status remains `ok`. One conjunct per raced tool. -/
theorem c2_soft_timeout_tool_level (dedupFn : List String → List String)
    (origin : String) (rank timeout : ℕ) (timestamp : String) (env : PageEnv) :
    ((env.axeRun = AsyncToolRun.hangs ∨
        ∃ d vs, env.axeRun = AsyncToolRun.completes d vs ∧ softTimeout timeout < d) →
      auditSite dedupFn origin rank timeout timestamp (TaskEvent.completes env) =
        Except.ok (okSiteResult dedupFn origin rank timeout timestamp env) ∧
      (okSiteResult dedupFn origin rank timeout timestamp env).status = Status.ok ∧
      (okSiteResult dedupFn origin rank timeout timestamp env).axeStatus = Status.error ∧
      (okSiteResult dedupFn origin rank timeout timestamp env).axeTimeMs = -1 ∧
      (okSiteResult dedupFn origin rank timeout timestamp env).axeError =
        some "audit timeout") ∧
    ((env.ibmRun = AsyncToolRun.hangs ∨
        ∃ d vs, env.ibmRun = AsyncToolRun.completes d vs ∧ softTimeout timeout < d) →
      auditSite dedupFn origin rank timeout timestamp (TaskEvent.completes env) =
        Except.ok (okSiteResult dedupFn origin rank timeout timestamp env) ∧
      (okSiteResult dedupFn origin rank timeout timestamp env).status = Status.ok ∧
      (okSiteResult dedupFn origin rank timeout timestamp env).ibmStatus = Status.error ∧
      (okSiteResult dedupFn origin rank timeout timestamp env).ibmTimeMs = -1 ∧
      (okSiteResult dedupFn origin rank timeout timestamp env).ibmError =
        some "audit timeout") := by
  constructor
  · intro hax
    have hsec : runWrapped (softTimeout timeout) env.axeRun =
        ⟨-1, Status.error, some "audit timeout", []⟩ := by
      rcases hax with h | ⟨d, vs, h, hd⟩
      · rw [h]
        rfl
      · rw [h]
        simp only [runWrapped]
        rw [if_neg (by omega)]
    refine ⟨rfl, rfl, ?_, ?_, ?_⟩ <;> simp [okSiteResult, runAuditCode, hsec]
  · intro hibm
    have hsec : runWrapped (softTimeout timeout) env.ibmRun =
        ⟨-1, Status.error, some "audit timeout", []⟩ := by
      rcases hibm with h | ⟨d, vs, h, hd⟩
      · rw [h]
        rfl
      · rw [h]
        simp only [runWrapped]
        rw [if_neg (by omega)]
    refine ⟨rfl, rfl, ?_, ?_, ?_⟩ <;> simp [okSiteResult, runAuditCode, hsec]

/-- Witness for the amended C2 at concrete inputs with timeout 1000 (soft
bound 800): a task whose axe call resolves after 801 ms, a task whose IBM
call resolves after 801 ms, and a task whose IBM call never resolves —
each yields a task-level `ok` AuditResult with the timed-out tool recorded
as `error`, `-1`, "audit timeout". -/
theorem c2_soft_timeout_tool_level_witness :
    ((okSiteResult (fun l => l) "https://example.com" 1 1000 "t0"
      ⟨0, [], [], AsyncToolRun.completes 801 [], SyncToolRun.completes 5 [],
        AsyncToolRun.completes 5 []⟩).status = Status.ok ∧
     (okSiteResult (fun l => l) "https://example.com" 1 1000 "t0"
      ⟨0, [], [], AsyncToolRun.completes 801 [], SyncToolRun.completes 5 [],
        AsyncToolRun.completes 5 []⟩).axeStatus = Status.error ∧
     (okSiteResult (fun l => l) "https://example.com" 1 1000 "t0"
      ⟨0, [], [], AsyncToolRun.completes 801 [], SyncToolRun.completes 5 [],
        AsyncToolRun.completes 5 []⟩).axeTimeMs = -1 ∧
     (okSiteResult (fun l => l) "https://example.com" 1 1000 "t0"
      ⟨0, [], [], AsyncToolRun.completes 801 [], SyncToolRun.completes 5 [],
        AsyncToolRun.completes 5 []⟩).axeError = some "audit timeout") ∧
    ((okSiteResult (fun l => l) "https://example.com" 1 1000 "t0"
      ⟨0, [], [], AsyncToolRun.completes 5 [], SyncToolRun.completes 5 [],
        AsyncToolRun.completes 801 []⟩).status = Status.ok ∧
     (okSiteResult (fun l => l) "https://example.com" 1 1000 "t0"
      ⟨0, [], [], AsyncToolRun.completes 5 [], SyncToolRun.completes 5 [],
        AsyncToolRun.completes 801 []⟩).ibmStatus = Status.error ∧
     (okSiteResult (fun l => l) "https://example.com" 1 1000 "t0"
      ⟨0, [], [], AsyncToolRun.completes 5 [], SyncToolRun.completes 5 [],
        AsyncToolRun.completes 801 []⟩).ibmTimeMs = -1 ∧
     (okSiteResult (fun l => l) "https://example.com" 1 1000 "t0"
      ⟨0, [], [], AsyncToolRun.completes 5 [], SyncToolRun.completes 5 [],
        AsyncToolRun.completes 801 []⟩).ibmError = some "audit timeout") ∧
    ((okSiteResult (fun l => l) "https://example.com" 1 1000 "t0"
      ⟨0, [], [], AsyncToolRun.completes 5 [], SyncToolRun.completes 5 [],
        AsyncToolRun.hangs⟩).status = Status.ok ∧
     (okSiteResult (fun l => l) "https://example.com" 1 1000 "t0"
      ⟨0, [], [], AsyncToolRun.completes 5 [], SyncToolRun.completes 5 [],
        AsyncToolRun.hangs⟩).ibmStatus = Status.error) := by
  have ha := (c2_soft_timeout_tool_level (fun l => l) "https://example.com" 1 1000 "t0"
    ⟨0, [], [], AsyncToolRun.completes 801 [], SyncToolRun.completes 5 [],
      AsyncToolRun.completes 5 []⟩).1
    (Or.inr ⟨801, [], rfl, by decide⟩)
  have hb := (c2_soft_timeout_tool_level (fun l => l) "https://example.com" 1 1000 "t0"
    ⟨0, [], [], AsyncToolRun.completes 5 [], SyncToolRun.completes 5 [],
      AsyncToolRun.completes 801 []⟩).2
    (Or.inr ⟨801, [], rfl, by decide⟩)
  have hc := (c2_soft_timeout_tool_level (fun l => l) "https://example.com" 1 1000 "t0"
    ⟨0, [], [], AsyncToolRun.completes 5 [], SyncToolRun.completes 5 [],
      AsyncToolRun.hangs⟩).2 (Or.inl rfl)
  exact ⟨⟨ha.2.1, ha.2.2.1, ha.2.2.2.1, ha.2.2.2.2⟩,
    ⟨hb.2.1, hb.2.2.1, hb.2.2.2.1, hb.2.2.2.2⟩,
    ⟨hc.2.1, hc.2.2.1⟩⟩

/-- C8: for every task in which one tool invocation throws or rejects while
the others succeed (within the soft timeout for the raced tools), the
produced AuditResult still contains the other tools' categoriesFound and
timeMs unchanged (equal to the derivations from their own results alone),
the task-level status is `ok` overall, and the failing tool's toolStatus
is `error` with its timeMs set to the sentinel value `-1`. One conjunct
per failing tool: axe, AccessLint, IBM. -/
theorem c8_tool_isolation (dedupFn : List String → List String) (origin : String)
    (rank timeout : ℕ) (timestamp : String) :
    (∀ (env : PageEnv) (msg : String) (dal di : ℕ)
        (val : List AlViolation) (vi : List IbmViolation),
      env.axeRun = AsyncToolRun.throws msg →
      env.alRun = SyncToolRun.completes dal val →
      env.ibmRun = AsyncToolRun.completes di vi → di ≤ softTimeout timeout →
      auditSite dedupFn origin rank timeout timestamp (TaskEvent.completes env) =
        Except.ok (okSiteResult dedupFn origin rank timeout timestamp env) ∧
      (okSiteResult dedupFn origin rank timeout timestamp env).status = Status.ok ∧
      (okSiteResult dedupFn origin rank timeout timestamp env).axeStatus = Status.error ∧
      (okSiteResult dedupFn origin rank timeout timestamp env).axeTimeMs = -1 ∧
      (okSiteResult dedupFn origin rank timeout timestamp env).axeError = some msg ∧
      (okSiteResult dedupFn origin rank timeout timestamp env).alTimeMs = (dal : ℤ) ∧
      (okSiteResult dedupFn origin rank timeout timestamp env).alStatus = Status.ok ∧
      (okSiteResult dedupFn origin rank timeout timestamp env).alWcagCriteria =
        alCriteriaSorted env.alRuleWcagMap val ∧
      (okSiteResult dedupFn origin rank timeout timestamp env).ibmTimeMs = (di : ℤ) ∧
      (okSiteResult dedupFn origin rank timeout timestamp env).ibmStatus = Status.ok ∧
      (okSiteResult dedupFn origin rank timeout timestamp env).ibmWcagCriteria =
        ibmCriteriaSorted env.ibmRuleWcagMap vi) ∧
    (∀ (env : PageEnv) (msg : String) (da di : ℕ)
        (va : List AxeViolation) (vi : List IbmViolation),
      env.alRun = SyncToolRun.throws msg →
      env.axeRun = AsyncToolRun.completes da va → da ≤ softTimeout timeout →
      env.ibmRun = AsyncToolRun.completes di vi → di ≤ softTimeout timeout →
      auditSite dedupFn origin rank timeout timestamp (TaskEvent.completes env) =
        Except.ok (okSiteResult dedupFn origin rank timeout timestamp env) ∧
      (okSiteResult dedupFn origin rank timeout timestamp env).status = Status.ok ∧
      (okSiteResult dedupFn origin rank timeout timestamp env).alStatus = Status.error ∧
      (okSiteResult dedupFn origin rank timeout timestamp env).alTimeMs = -1 ∧
      (okSiteResult dedupFn origin rank timeout timestamp env).alError = some msg ∧
      (okSiteResult dedupFn origin rank timeout timestamp env).axeTimeMs = (da : ℤ) ∧
      (okSiteResult dedupFn origin rank timeout timestamp env).axeStatus = Status.ok ∧
      (okSiteResult dedupFn origin rank timeout timestamp env).axeWcagCriteria =
        axeCriteriaSorted dedupFn va ∧
      (okSiteResult dedupFn origin rank timeout timestamp env).ibmTimeMs = (di : ℤ) ∧
      (okSiteResult dedupFn origin rank timeout timestamp env).ibmStatus = Status.ok ∧
      (okSiteResult dedupFn origin rank timeout timestamp env).ibmWcagCriteria =
        ibmCriteriaSorted env.ibmRuleWcagMap vi) ∧
    (∀ (env : PageEnv) (msg : String) (da dal : ℕ)
        (va : List AxeViolation) (val : List AlViolation),
      env.ibmRun = AsyncToolRun.throws msg →
      env.axeRun = AsyncToolRun.completes da va → da ≤ softTimeout timeout →
      env.alRun = SyncToolRun.completes dal val →
      auditSite dedupFn origin rank timeout timestamp (TaskEvent.completes env) =
        Except.ok (okSiteResult dedupFn origin rank timeout timestamp env) ∧
      (okSiteResult dedupFn origin rank timeout timestamp env).status = Status.ok ∧
      (okSiteResult dedupFn origin rank timeout timestamp env).ibmStatus = Status.error ∧
      (okSiteResult dedupFn origin rank timeout timestamp env).ibmTimeMs = -1 ∧
      (okSiteResult dedupFn origin rank timeout timestamp env).ibmError = some msg ∧
      (okSiteResult dedupFn origin rank timeout timestamp env).axeTimeMs = (da : ℤ) ∧
      (okSiteResult dedupFn origin rank timeout timestamp env).axeStatus = Status.ok ∧
      (okSiteResult dedupFn origin rank timeout timestamp env).axeWcagCriteria =
        axeCriteriaSorted dedupFn va ∧
      (okSiteResult dedupFn origin rank timeout timestamp env).alTimeMs = (dal : ℤ) ∧
      (okSiteResult dedupFn origin rank timeout timestamp env).alStatus = Status.ok ∧
      (okSiteResult dedupFn origin rank timeout timestamp env).alWcagCriteria =
        alCriteriaSorted env.alRuleWcagMap val) := by
  refine ⟨?_, ?_, ?_⟩
  · intro env msg dal di val vi h1 h2 h3 h4
    have hax : runWrapped (softTimeout timeout) env.axeRun =
        ⟨-1, Status.error, some msg, []⟩ := by
      rw [h1]
      rfl
    have hal : runSync env.alRun = ⟨(dal : ℤ), Status.ok, none, val⟩ := by
      rw [h2]
      rfl
    have hibm : runWrapped (softTimeout timeout) env.ibmRun =
        ⟨(di : ℤ), Status.ok, none, vi⟩ := by
      rw [h3]
      simp only [runWrapped]
      rw [if_pos h4]
    refine ⟨rfl, rfl, ?_, ?_, ?_, ?_, ?_, ?_, ?_, ?_, ?_⟩ <;>
      simp [okSiteResult, runAuditCode, hax, hal, hibm]
  · intro env msg da di va vi h1 h2 h3 h4 h5
    have hax : runWrapped (softTimeout timeout) env.axeRun =
        ⟨(da : ℤ), Status.ok, none, va⟩ := by
      rw [h2]
      simp only [runWrapped]
      rw [if_pos h3]
    have hal : runSync env.alRun = ⟨-1, Status.error, some msg, []⟩ := by
      rw [h1]
      rfl
    have hibm : runWrapped (softTimeout timeout) env.ibmRun =
        ⟨(di : ℤ), Status.ok, none, vi⟩ := by
      rw [h4]
      simp only [runWrapped]
      rw [if_pos h5]
    refine ⟨rfl, rfl, ?_, ?_, ?_, ?_, ?_, ?_, ?_, ?_, ?_⟩ <;>
      simp [okSiteResult, runAuditCode, hax, hal, hibm]
  · intro env msg da dal va val h1 h2 h3 h4
    have hax : runWrapped (softTimeout timeout) env.axeRun =
        ⟨(da : ℤ), Status.ok, none, va⟩ := by
      rw [h2]
      simp only [runWrapped]
      rw [if_pos h3]
    have hal : runSync env.alRun = ⟨(dal : ℤ), Status.ok, none, val⟩ := by
      rw [h4]
      rfl
    have hibm : runWrapped (softTimeout timeout) env.ibmRun =
        ⟨-1, Status.error, some msg, []⟩ := by
      rw [h1]
      rfl
    refine ⟨rfl, rfl, ?_, ?_, ?_, ?_, ?_, ?_, ?_, ?_, ?_⟩ <;>
      simp [okSiteResult, runAuditCode, hax, hal, hibm]

/-- Witness for C8 at a concrete task in which AccessLint throws while axe
and IBM succeed within the soft timeout: the AuditResult keeps the other
tools' times and criteria, the task-level status is `ok`, and the failing
tool carries `error` and the `-1` sentinel. -/
theorem c8_tool_isolation_witness :
    auditSite (fun l => l) "https://example.com" 2 30000 "t0"
        (TaskEvent.completes ⟨3, [("r1", ["1.3.1"])], [("i1", ["4.1.2"])],
          AsyncToolRun.completes 10 [⟨"img-alt", ["wcag111"], 2, none⟩],
          SyncToolRun.throws "boom",
          AsyncToolRun.completes 12 [⟨"i1", 3⟩]⟩) =
      Except.ok (okSiteResult (fun l => l) "https://example.com" 2 30000 "t0"
        ⟨3, [("r1", ["1.3.1"])], [("i1", ["4.1.2"])],
          AsyncToolRun.completes 10 [⟨"img-alt", ["wcag111"], 2, none⟩],
          SyncToolRun.throws "boom",
          AsyncToolRun.completes 12 [⟨"i1", 3⟩]⟩) ∧
    (okSiteResult (fun l => l) "https://example.com" 2 30000 "t0"
      ⟨3, [("r1", ["1.3.1"])], [("i1", ["4.1.2"])],
        AsyncToolRun.completes 10 [⟨"img-alt", ["wcag111"], 2, none⟩],
        SyncToolRun.throws "boom",
        AsyncToolRun.completes 12 [⟨"i1", 3⟩]⟩).status = Status.ok ∧
    (okSiteResult (fun l => l) "https://example.com" 2 30000 "t0"
      ⟨3, [("r1", ["1.3.1"])], [("i1", ["4.1.2"])],
        AsyncToolRun.completes 10 [⟨"img-alt", ["wcag111"], 2, none⟩],
        SyncToolRun.throws "boom",
        AsyncToolRun.completes 12 [⟨"i1", 3⟩]⟩).alStatus = Status.error ∧
    (okSiteResult (fun l => l) "https://example.com" 2 30000 "t0"
      ⟨3, [("r1", ["1.3.1"])], [("i1", ["4.1.2"])],
        AsyncToolRun.completes 10 [⟨"img-alt", ["wcag111"], 2, none⟩],
        SyncToolRun.throws "boom",
        AsyncToolRun.completes 12 [⟨"i1", 3⟩]⟩).alTimeMs = -1 ∧
    (okSiteResult (fun l => l) "https://example.com" 2 30000 "t0"
      ⟨3, [("r1", ["1.3.1"])], [("i1", ["4.1.2"])],
        AsyncToolRun.completes 10 [⟨"img-alt", ["wcag111"], 2, none⟩],
        SyncToolRun.throws "boom",
        AsyncToolRun.completes 12 [⟨"i1", 3⟩]⟩).axeTimeMs = (10 : ℤ) ∧
    (okSiteResult (fun l => l) "https://example.com" 2 30000 "t0"
      ⟨3, [("r1", ["1.3.1"])], [("i1", ["4.1.2"])],
        AsyncToolRun.completes 10 [⟨"img-alt", ["wcag111"], 2, none⟩],
        SyncToolRun.throws "boom",
        AsyncToolRun.completes 12 [⟨"i1", 3⟩]⟩).axeWcagCriteria =
      axeCriteriaSorted (fun l => l) [⟨"img-alt", ["wcag111"], 2, none⟩] ∧
    (okSiteResult (fun l => l) "https://example.com" 2 30000 "t0"
      ⟨3, [("r1", ["1.3.1"])], [("i1", ["4.1.2"])],
        AsyncToolRun.completes 10 [⟨"img-alt", ["wcag111"], 2, none⟩],
        SyncToolRun.throws "boom",
        AsyncToolRun.completes 12 [⟨"i1", 3⟩]⟩).ibmTimeMs = (12 : ℤ) := by
  have h := (c8_tool_isolation (fun l => l) "https://example.com" 2 30000 "t0").2.1
    ⟨3, [("r1", ["1.3.1"])], [("i1", ["4.1.2"])],
      AsyncToolRun.completes 10 [⟨"img-alt", ["wcag111"], 2, none⟩],
      SyncToolRun.throws "boom",
      AsyncToolRun.completes 12 [⟨"i1", 3⟩]⟩
    "boom" 10 12 [⟨"img-alt", ["wcag111"], 2, none⟩] [⟨"i1", 3⟩]
    rfl rfl (by decide) rfl (by decide)
  obtain ⟨ha, hb, hc, hd, _, he, _, hg, hi, _, _⟩ := h
  exact ⟨ha, hb, hc, hd, he, hg, hi⟩

/-- C1: for every 2x2 contingency table with `n > 0` derived by the
Concordance Engine, the reported Cohen kappa equals the spec formula
`(po - pe) / (1 - pe)` with the guard `kappa = 1` whenever `pe = 1`
(in particular when `p1 = 1` and `p2 = 1`), so the computation never
divides by zero. Conjuncts: (a) every two-tool concordance entry has a
positive cell total and reports the spec kappa of its cells; (b) the
three-tool helper kappa agrees with the spec formula for nonempty tables;
(c) `pe = 1` forces the reported kappa to be `1`; (d) `p1 = 1` and
`p2 = 1` force `pe = 1`; (e) when `pe ≠ 1` the divisor `1 - pe` is
nonzero. -/
theorem c1_kappa_formula :
    (∀ results : List ConcordanceInput, ∀ e ∈ calculateConcordance results,
      0 < e.bothFound + e.axeOnly + e.alOnly + e.neitherFound ∧
      e.cohenKappa = kappaSpec e.bothFound e.axeOnly e.alOnly e.neitherFound) ∧
    (∀ a b c d : ℕ, 0 < a + b + c + d → cohenKappa a b c d = kappaSpec a b c d) ∧
    (∀ a b c d : ℕ, peSpec a b c d = 1 → kappaSpec a b c d = 1) ∧
    (∀ a b c d : ℕ, p1Spec a b c d = 1 → p2Spec a b c d = 1 → peSpec a b c d = 1) ∧
    (∀ a b c d : ℕ, peSpec a b c d ≠ 1 → 1 - peSpec a b c d ≠ 0) := by
  refine ⟨?_, cohenKappa_eq_kappaSpec, ?_, ?_, ?_⟩
  · intro results e he
    obtain ⟨hsum, hpos⟩ := calculateConcordance_cells results e he
    exact ⟨by omega, calculateConcordance_kappa results e he⟩
  · intro a b c d hpe
    simp [kappaSpec, hpe]
  · intro a b c d h1 h2
    simp [peSpec, h1, h2]
  · intro a b c d hpe
    exact sub_ne_zero_of_ne (Ne.symm hpe)

/-- Witness for C1 at the spec test tables: `(5,0,0,5)` gives kappa `1` and
`(8,1,1,0)` gives kappa `-1/9`, and the concordance output of a concrete
one-result collection reports the spec kappa of its cells. -/
theorem c1_kappa_formula_witness :
    cohenKappa 5 0 0 5 = kappaSpec 5 0 0 5 ∧
    kappaSpec 5 0 0 5 = 1 ∧
    kappaSpec 8 1 1 0 = -(1 / 9 : ℚ) ∧
    kappaSpec 0 0 0 3 = 1 ∧
    (∀ e ∈ calculateConcordance
        [ConcordanceInput.mk Status.ok ["1.1.1"] []],
      e.cohenKappa = kappaSpec e.bothFound e.axeOnly e.alOnly e.neitherFound) :=
  ⟨c1_kappa_formula.2.1 5 0 0 5 (by decide),
    by norm_num [kappaSpec, peSpec, poSpec, p1Spec, p2Spec, nSpec],
    by norm_num [kappaSpec, peSpec, poSpec, p1Spec, p2Spec, nSpec],
    by norm_num [kappaSpec, peSpec, poSpec, p1Spec, p2Spec, nSpec],
    fun e he => (c1_kappa_formula.1 [ConcordanceInput.mk Status.ok ["1.1.1"] []] e he).2⟩

/-- C10: for every input collection and every criterion entry produced by the
Concordance Engine, the contingency cells sum to the number of `ok` input
results — `bothFound + axeOnly + alOnly + neitherFound = |ok results|` in
the two-tool variant, `allThree + twoOfThree + oneOnly + noneFound =
|ok results|` in the three-tool variant — and results with status `error`
contribute to no cell and to the criterion universe not at all (each
engine output is unchanged when the error results are removed). -/
theorem c10_cells_partition :
    (∀ results : List ConcordanceInput,
      (∀ e ∈ calculateConcordance results,
        e.bothFound + e.axeOnly + e.alOnly + e.neitherFound =
          (results.filter fun r => r.status == Status.ok).length) ∧
      calculateConcordance results =
        calculateConcordance (results.filter fun r => r.status == Status.ok)) ∧
    (∀ results : List ConcordanceInput3,
      (∀ e ∈ calculateConcordance3 results,
        e.allThree + e.twoOfThree + e.oneOnly + e.noneFound =
          (results.filter fun r => r.status == Status.ok).length) ∧
      calculateConcordance3 results =
        calculateConcordance3 (results.filter fun r => r.status == Status.ok)) := by
  constructor
  · intro results
    exact ⟨fun e he => (calculateConcordance_cells results e he).1,
      calculateConcordance_filter_ok results⟩
  · intro results
    exact ⟨calculateConcordance3_buckets results, calculateConcordance3_filter_ok results⟩

/-- Witness for C10 on a concrete collection with one ok and one error
result: the single criterion entry has cells summing to 1, and dropping the
error result leaves the output unchanged. -/
theorem c10_cells_partition_witness :
    (∀ e ∈ calculateConcordance
        [ConcordanceInput.mk Status.ok ["1.1.1"] [],
         ConcordanceInput.mk Status.error ["4.1.2"] ["4.1.2"]],
      e.bothFound + e.axeOnly + e.alOnly + e.neitherFound = 1) ∧
    (∀ e ∈ calculateConcordance3
        [ConcordanceInput3.mk Status.ok ["1.1.1"] [] (some ["1.1.1"]),
         ConcordanceInput3.mk Status.error [] [] none],
      e.allThree + e.twoOfThree + e.oneOnly + e.noneFound = 1) := by
  constructor
  · intro e he
    have h := (c10_cells_partition.1
      [ConcordanceInput.mk Status.ok ["1.1.1"] [],
       ConcordanceInput.mk Status.error ["4.1.2"] ["4.1.2"]]).1 e he
    simpa using h
  · intro e he
    have h := (c10_cells_partition.2
      [ConcordanceInput3.mk Status.ok ["1.1.1"] [] (some ["1.1.1"]),
       ConcordanceInput3.mk Status.error [] [] none]).1 e he
    simpa using h

end WebBench
